import Mathlib

/-!
Verification of the ticket reconciliation pipeline
(`parse_local_ticket_files.py` and `compare_and_export.py` of
DaDevFox/task-systems) against its natural-language specification.

The Python programs are shallowly embedded: Python runtime values become the
inductive type `Val`, dictionaries become insertion-ordered association
lists, the external `gh` calls become explicit parameters (a snapshot list,
a per-call outcome, and a raw sub-issue reply), and every fallible operation
is made total exactly the way the source recovers from it (returning the
neutral value) or is surfaced as an explicit `fatal` run result where the
source exits.
-/

/-- A Python runtime value, as produced by `ast.literal_eval` / `json.loads`.
Floats are represented by rationals: only decimal literals reachable through
the pipeline matter, and no claim depends on IEEE rounding. Tuples are not
modelled (a top-level tuple literal is extracted but then skipped by
`main`'s `isinstance(lit, list)` test, so it never reaches normalization). -/
inductive Val where
  | vnull
  | vbool (b : Bool)
  | vint (n : Int)
  | vfloat (q : Rat)
  | vstr (s : String)
  | vlist (xs : List Val)
  | vdict (entries : List (Val × Val))

/-- A Python dict, as an insertion-ordered association list (keys unique). -/
abbrev PyDict := List (Val × Val)

/-- Python truthiness (`bool(v)`): `None`, `False`, `0`, `0.0`, `''`, `[]`,
`{}` are falsy, everything else truthy. -/
def pyTruthy : Val → Bool
  | .vnull => false
  | .vbool b => b
  | .vint n => n != 0
  | .vfloat q => q != 0
  | .vstr s => s != ""
  | .vlist xs => !xs.isEmpty
  | .vdict d => !d.isEmpty

/-- The numeric value of a Python number, if the value is one (`bool` is a
subtype of `int` in Python: `True == 1`). -/
def numVal : Val → Option Rat
  | .vbool b => some (if b then 1 else 0)
  | .vint n => some (n : Rat)
  | .vfloat q => some q
  | _ => none

/-- Python `==` restricted to the shapes the pipeline actually compares:
numbers compare by value across `bool`/`int`/`float`, `None` and strings
compare structurally, and any other pair compares unequal. Two containers
are never compared inside the pipeline: every `==` in the source happens
either on dict-key/set-membership paths (where CPython would raise
`TypeError: unhashable` on a container before comparing) or against a
remote title/number, which is a scalar. -/
def pyEq (a b : Val) : Bool :=
  match numVal a, numVal b with
  | some x, some y => decide (x = y)
  | _, _ =>
    match a, b with
    | .vnull, .vnull => true
    | .vstr s, .vstr t => s == t
    | _, _ => false

/-- Python `a or b`: `a` if truthy, else `b`. -/
def pyOr (a b : Val) : Val :=
  if pyTruthy a then a else b

/-- Python `d.get(k)` for a string key: first matching entry, else `None`. -/
def dget (d : PyDict) (k : String) : Val :=
  match d.find? (fun kv => pyEq kv.1 (.vstr k)) with
  | some kv => kv.2
  | none => .vnull

/-- Python `d[k] = x` for a string key: overwrite in place if present,
else append (Python dicts preserve insertion order). -/
def dset (d : PyDict) (k : String) (x : Val) : PyDict :=
  if d.any (fun kv => pyEq kv.1 (.vstr k)) then
    d.map (fun kv => if pyEq kv.1 (.vstr k) then (kv.1, x) else kv)
  else d ++ [(.vstr k, x)]

/-- Python `t in seen` for a set modelled as the list of added elements. -/
def memPy (t : Val) (l : List Val) : Bool :=
  l.any (fun x => pyEq t x)

theorem pyEq_vstr_refl (s : String) : pyEq (.vstr s) (.vstr s) = true := by
  simp [pyEq, numVal]

theorem find?_dset_mapped (d : PyDict) (k : String) (x : Val)
    (h : ∃ kv ∈ d, pyEq kv.1 (.vstr k) = true) :
    ∃ u : Val × Val,
      (d.map (fun kv => if pyEq kv.1 (.vstr k) = true then (kv.1, x) else kv)).find?
        (fun kv => pyEq kv.1 (.vstr k)) = some u ∧ u.2 = x := by
  induction d with
  | nil => simp at h
  | cons hd tl ih =>
    by_cases hh : pyEq hd.1 (.vstr k) = true
    · exact ⟨(hd.1, x), by simp [List.find?, hh], rfl⟩
    · obtain ⟨kv, hmem, hkv⟩ := h
      rcases List.mem_cons.mp hmem with hout | hout
      · exact absurd (hout ▸ hkv) hh
      · obtain ⟨u, hu, hux⟩ := ih ⟨kv, hout, hkv⟩
        exact ⟨u, by simpa [List.find?, hh] using hu, hux⟩

theorem dget_dset_same (d : PyDict) (k : String) (x : Val) :
    dget (dset d k x) k = x := by
  unfold dget dset
  by_cases h : d.any (fun kv => pyEq kv.1 (.vstr k)) = true
  · simp only [h, if_pos]
    obtain ⟨u, hu, hux⟩ :=
      find?_dset_mapped d k x (by simpa [List.any_eq_true] using h)
    rw [hu]
    exact hux
  · simp only [h, Bool.false_eq_true, if_neg, not_false_eq_true]
    rw [List.find?_append]
    have h2 : List.find? (fun kv => pyEq kv.1 (Val.vstr k)) d = none := by
      rw [List.find?_eq_none]
      intro kv hkv hc
      exact h (List.any_eq_true.mpr ⟨kv, hkv, hc⟩)
    simp [h2, List.find?, pyEq_vstr_refl]

/-! ## Numeric coercions (`int(x)`, `float(x)`) -/

def digitsToNat (l : List Char) : Nat :=
  l.foldl (fun acc c => acc * 10 + (c.toNat - '0'.toNat)) 0

/-- A nonempty all-digit run, as a natural number. -/
def parseNatDigits (l : List Char) : Option Nat :=
  if !l.isEmpty && l.all Char.isDigit then some (digitsToNat l) else none

/-- Embedding of `int(s)` on an already-trimmed character list: optional sign followed by
digits (Python also accepts underscore separators, not modelled — no ticket
literal uses them). -/
def parseIntDigits : List Char → Option Int
  | '+' :: l => (parseNatDigits l).map Int.ofNat
  | '-' :: l => (parseNatDigits l).map (fun n => -(n : Int))
  | l => (parseNatDigits l).map Int.ofNat

/-- Whitespace as `str.strip()` removes it. -/
def isSpaceChar (c : Char) : Bool :=
  c == ' ' || c == '\t' || c == '\n' || c == '\r' || c == '\x0b' || c == '\x0c'

def trimChars (l : List Char) : List Char :=
  ((l.dropWhile isSpaceChar).reverse.dropWhile isSpaceChar).reverse

/-- Python `int(s)` for a string: surrounding whitespace is ignored. -/
def parseIntStr (s : String) : Option Int :=
  parseIntDigits (trimChars s.toList)

/-- Split a character list at the first `.`, if any. -/
def splitDot (l : List Char) : List Char × Option (List Char) :=
  match l.span (fun c => c != '.') with
  | (a, []) => (a, none)
  | (a, _ :: rest) => (a, some rest)

/-- An unsigned decimal mantissa: `digits`, `digits.`, `.digits` or
`digits.digits` (Python additionally accepts exponents and `inf`/`nan`,
not modelled — unreachable from the ticket literals). -/
def parseMantissa (l : List Char) : Option Rat :=
  match splitDot l with
  | (a, none) => (parseNatDigits a).map (fun n => (n : Rat))
  | (a, some b) =>
    if b.any (fun c => c == '.') then none
    else if a.isEmpty && b.isEmpty then none
    else if a.all Char.isDigit && b.all Char.isDigit then
      some ((digitsToNat a : Rat) + (digitsToNat b : Rat) / ((10 : Rat) ^ b.length))
    else none

/-- Python `float(s)` for a string: optional sign and decimal mantissa,
surrounding whitespace ignored. -/
def parseFloatStr (s : String) : Option Rat :=
  match trimChars s.toList with
  | '+' :: l => parseMantissa l
  | '-' :: l => (parseMantissa l).map Neg.neg
  | l => parseMantissa l

/-- Rational truncation toward zero, as Python `int(float)`. -/
def ratTrunc (q : Rat) : Int :=
  if 0 ≤ q.num then ((q.num.natAbs / q.den : Nat) : Int)
  else -((q.num.natAbs / q.den : Nat) : Int)

/-- Python `int(v)`: `none` models the `TypeError`/`ValueError` the caller
catches. -/
def pyToInt : Val → Option Int
  | .vbool b => some (if b then 1 else 0)
  | .vint n => some n
  | .vfloat q => some (ratTrunc q)
  | .vstr s => parseIntStr s
  | _ => none

/-- Python `float(v)`: `none` models the `TypeError`/`ValueError` the caller
catches. -/
def pyToFloat : Val → Option Rat
  | .vbool b => some (if b then 1 else 0)
  | .vint n => some (n : Rat)
  | .vfloat q => some q
  | .vstr s => parseFloatStr s
  | _ => none

/-! ## `parse_local_ticket_files.normalize_ticket` -/

/-- The normalized candidate record, with the exact field set
`normalize_ticket` produces. Field values stay `Val`: the source performs no
type enforcement beyond the coercions below. -/
structure CanonicalTicket where
  canonical_id : Val
  title : Val
  body : Val
  labels : Val
  parent_canonical : Val
  points : Val
  priority : Val
  requires : Val
  provides : Val

/-- The `try int / except try float / except None` cascade of
`normalize_ticket` (source lines 46–52), factored out as a helper. -/
def coercePoints (v : Val) : Val :=
  match pyToInt v with
  | some n => .vint n
  | none =>
    match pyToFloat v with
    | some q => .vfloat q
    | none => .vnull

/-- Embedding of `normalize_ticket(d)` (source lines 29–53): priority-ordered alias
resolution through Python `or` chains, then label splitting and points
coercion. -/
def normalize_ticket (d : PyDict) : CanonicalTicket :=
  let canonical_id := pyOr (dget d "canonical_id") (pyOr (dget d "id")
    (pyOr (dget d "key") (pyOr (dget d "ticket_id") .vnull)))
  let title := pyOr (dget d "title") (pyOr (dget d "name")
    (pyOr (dget d "summary") (.vstr "")))
  let body := pyOr (dget d "body") (pyOr (dget d "description")
    (pyOr (dget d "desc") (.vstr "")))
  let labels0 := pyOr (dget d "labels") (pyOr (dget d "tags") (.vlist []))
  let parent_canonical := pyOr (dget d "parent") (pyOr (dget d "parent_id")
    (pyOr (dget d "parent_key") .vnull))
  let points0 := pyOr (dget d "points") (pyOr (dget d "estimate") .vnull)
  let priority := pyOr (dget d "priority") .vnull
  let requires := pyOr (dget d "requires") (pyOr (dget d "REQUIRES") (.vstr ""))
  let provides := pyOr (dget d "provides") (pyOr (dget d "PROVIDES") (.vstr ""))
  let labels :=
    match labels0 with
    | .vstr s => .vlist ((((s.splitOn ",").map String.trim).filter
        (fun t => t != "")).map .vstr)
    | v => v
  let points :=
    match points0 with
    | .vnull => .vnull
    | v => coercePoints v
  ⟨canonical_id, title, body, labels, parent_canonical, points, priority,
    requires, provides⟩

/-! ## `parse_local_ticket_files.main`: extraction and deduplication -/

def isVDict : Val → Bool
  | .vdict _ => true
  | _ => false

def asDict : Val → PyDict
  | .vdict d => d
  | _ => []

/-- The run-scoped mutable state of `main` (lines 95–139): the
`seen_titles` set (as its insertion sequence) and `candidate_list`. -/
structure ExtractState where
  seen : List Val
  candidates : List CanonicalTicket

/-- The repeated guard-and-append block of `main` (`if not cand['title']:
continue / if cand['title'] in seen_titles: continue / add`). The model
treats every title as hashable; on a container-valued title CPython's
`seen_titles` set operations would raise `TypeError` and no run would
complete at all. -/
def addCandidate (st : ExtractState) (cand : CanonicalTicket) : ExtractState :=
  if !pyTruthy cand.title then st
  else if memPy cand.title st.seen then st
  else ⟨st.seen ++ [cand.title], st.candidates ++ [cand]⟩

/-- Processing of one extracted literal (`main`, lines 105–139): a list of
dicts is normalized per element; a dict whose values are all dicts is a
mapping-of-records, whose key is forced into `canonical_id` (the in-place
`v['canonical_id'] = v.get('canonical_id') or k`); any other dict is
normalized as a single ticket; any other literal shape is skipped. -/
def processLiteral (st : ExtractState) (lit : Val) : ExtractState :=
  match lit with
  | .vlist items =>
    if items.all isVDict then
      items.foldl (fun s it => addCandidate s (normalize_ticket (asDict it))) st
    else st
  | .vdict entries =>
    if entries.all (fun kv => isVDict kv.2) then
      entries.foldl (fun s kv =>
        addCandidate s (normalize_ticket
          (dset (asDict kv.2) "canonical_id"
            (pyOr (dget (asDict kv.2) "canonical_id") kv.1)))) st
    else addCandidate st (normalize_ticket entries)
  | _ => st

/-- A full extraction run over the literals harvested from all matched
source files, in traversal order, starting from the empty state. -/
def extractRun (lits : List Val) : ExtractState :=
  lits.foldl processLiteral ⟨[], []⟩

/-! ### Dedup invariants -/

/-- The function `addCandidate` only ever appends. -/
theorem addCandidate_shape (st : ExtractState) (c : CanonicalTicket) :
    (addCandidate st c = st) ∨
    (addCandidate st c = ⟨st.seen ++ [c.title], st.candidates ++ [c]⟩ ∧
      pyTruthy c.title = true ∧ memPy c.title st.seen = false) := by
  unfold addCandidate
  by_cases h1 : pyTruthy c.title
  · by_cases h2 : memPy c.title st.seen
    · left; simp [h1, h2]
    · right
      refine ⟨by simp [h1, h2], h1, by simp [h2]⟩
  · left
    simp [h1]

/-- The state invariant maintained by the dedup loop: every surviving
candidate has a truthy title whose value was inserted in `seen`, and no
later candidate repeats (in Python equality) an earlier candidate's title. -/
def ExtractInv (st : ExtractState) : Prop :=
  (∀ c ∈ st.candidates, pyTruthy c.title = true ∧ c.title ∈ st.seen) ∧
  st.candidates.Pairwise (fun a b => pyEq b.title a.title = false)

theorem addCandidate_inv {st : ExtractState} (h : ExtractInv st)
    (c : CanonicalTicket) : ExtractInv (addCandidate st c) := by
  rcases addCandidate_shape st c with heq | ⟨heq, htr, hns⟩
  · rwa [heq]
  · rw [heq]
    obtain ⟨hmem, hpw⟩ := h
    constructor
    · intro x hx
      rcases List.mem_append.mp hx with hx | hx
      · obtain ⟨ht, hs⟩ := hmem x hx
        exact ⟨ht, List.mem_append.mpr (Or.inl hs)⟩
      · rcases List.mem_singleton.mp hx with rfl
        exact ⟨htr, List.mem_append.mpr (Or.inr (List.mem_singleton.mpr rfl))⟩
    · rw [List.pairwise_append]
      refine ⟨hpw, List.pairwise_singleton _ _, ?_⟩
      intro a ha b hb
      rcases List.mem_singleton.mp hb with rfl
      have hseen : a.title ∈ st.seen := (hmem a ha).2
      have : ∀ x ∈ st.seen, pyEq b.title x = false := by
        intro x hx
        by_contra hc
        have hc' : pyEq b.title x = true := by
          cases h' : pyEq b.title x
          · exact absurd h' hc
          · rfl
        have hmem2 : memPy b.title st.seen = true := by
          unfold memPy
          exact List.any_eq_true.mpr ⟨x, hx, hc'⟩
        rw [hns] at hmem2
        exact Bool.false_ne_true hmem2
      exact this a.title hseen

theorem addCandidate_extends (st : ExtractState) (c : CanonicalTicket) :
    st.candidates <+: (addCandidate st c).candidates ∧
    st.seen <+: (addCandidate st c).seen := by
  rcases addCandidate_shape st c with heq | ⟨heq, -, -⟩
  · rw [heq]; exact ⟨⟨[], List.append_nil _⟩, ⟨[], List.append_nil _⟩⟩
  · rw [heq]
    exact ⟨⟨[c], rfl⟩, ⟨[c.title], rfl⟩⟩

theorem foldl_preserve {α β : Type} (P : β → Prop) (f : β → α → β)
    (hf : ∀ st a, P st → P (f st a)) :
    ∀ (l : List α) (st : β), P st → P (l.foldl f st)
  | [], _, h => h
  | a :: l, st, h => foldl_preserve P f hf l (f st a) (hf st a h)

theorem foldl_extract_extends {α : Type} (f : ExtractState → α → ExtractState)
    (hf : ∀ st a, st.candidates <+: (f st a).candidates ∧
      st.seen <+: (f st a).seen) :
    ∀ (l : List α) (st : ExtractState),
      st.candidates <+: (l.foldl f st).candidates ∧
      st.seen <+: (l.foldl f st).seen
  | [], _ => ⟨⟨[], List.append_nil _⟩, ⟨[], List.append_nil _⟩⟩
  | a :: l, st => by
    obtain ⟨h1, h2⟩ := hf st a
    obtain ⟨h3, h4⟩ := foldl_extract_extends f hf l (f st a)
    exact ⟨h1.trans h3, h2.trans h4⟩

theorem processLiteral_inv {st : ExtractState} (h : ExtractInv st) (lit : Val) :
    ExtractInv (processLiteral st lit) := by
  unfold processLiteral
  match lit with
  | .vnull | .vbool _ | .vint _ | .vfloat _ | .vstr _ => exact h
  | .vlist items =>
    by_cases hall : items.all isVDict
    · simp only [hall, if_pos]
      exact foldl_preserve ExtractInv _ (fun st a hst => addCandidate_inv hst _)
        items st h
    · simp only [hall]
      exact h
  | .vdict entries =>
    by_cases hall : entries.all (fun kv => isVDict kv.2)
    · simp only [hall, if_pos]
      exact foldl_preserve ExtractInv _ (fun st a hst => addCandidate_inv hst _)
        entries st h
    · simp only [hall]
      exact addCandidate_inv h _

theorem processLiteral_extends (st : ExtractState) (lit : Val) :
    st.candidates <+: (processLiteral st lit).candidates ∧
    st.seen <+: (processLiteral st lit).seen := by
  unfold processLiteral
  match lit with
  | .vnull | .vbool _ | .vint _ | .vfloat _ | .vstr _ =>
    exact ⟨⟨[], List.append_nil _⟩, ⟨[], List.append_nil _⟩⟩
  | .vlist items =>
    by_cases hall : items.all isVDict
    · simp only [hall, if_pos]
      exact foldl_extract_extends _ (fun st a => addCandidate_extends st _) items st
    · simp only [hall]
      exact ⟨⟨[], List.append_nil _⟩, ⟨[], List.append_nil _⟩⟩
  | .vdict entries =>
    by_cases hall : entries.all (fun kv => isVDict kv.2)
    · simp only [hall, if_pos]
      exact foldl_extract_extends _ (fun st a => addCandidate_extends st _)
        entries st
    · simp only [hall]
      exact addCandidate_extends st _

theorem extractRun_inv (lits : List Val) : ExtractInv (extractRun lits) := by
  unfold extractRun
  exact foldl_preserve ExtractInv processLiteral
    (fun st a hst => processLiteral_inv hst a) lits ⟨[], []⟩
    ⟨by intro c hc; simp at hc, List.Pairwise.nil⟩

theorem extractRun_mono (lits lits' : List Val) :
    (extractRun lits).candidates <+: (extractRun (lits ++ lits')).candidates := by
  unfold extractRun
  rw [List.foldl_append]
  exact (foldl_extract_extends processLiteral processLiteral_extends lits'
    (List.foldl processLiteral ⟨[], []⟩ lits)).1

/-! ## `compare_and_export.py` -/

/-- One remote issue as returned by `gh issue list --json number,title,body`
(the three fields are always present in the JSON; `body` may be null). -/
structure RemoteTicket where
  number : Int
  title : String
  body : Option String

/-- Leading-segment test on character lists. -/
def startsWithL : List Char → List Char → Bool
  | _, [] => true
  | [], _ :: _ => false
  | a :: hay, b :: needle => a == b && startsWithL hay needle

/-- Substring test `needle in hay` on character lists (Python `in` for
strings; the empty needle matches everywhere). -/
def strIn (hay needle : List Char) : Bool :=
  match hay with
  | [] => needle.isEmpty
  | _ :: t => startsWithL hay needle || strIn t needle

/-- The constant `REQUIRE_FIELDS` (source line 27). -/
def REQUIRE_FIELDS : List String := ["REQUIRES", "PROVIDES", "PRIORITY"]

/-- Characterwise uppercasing, as `str.upper` on the ASCII bodies the
pipeline handles. -/
def upperChars (l : List Char) : List Char :=
  l.map Char.toUpper

/-- Embedding of `body_has_required_fields(body)` (lines 65–70): uppercase the body (empty
if falsy) and require each marker as a substring. -/
def body_has_required_fields (body : String) : Bool :=
  let ub := if body != "" then upperChars body.toList else []
  REQUIRE_FIELDS.all (fun f => strIn ub f.toList)

/-- Embedding of `gh_issue_list_by_title(title)` (lines 34–42), after the `gh` call
succeeded with snapshot `arr`: keep the items whose title equals the
candidate's. (The `RuntimeError` branch on a failed call is modelled at the
call site in `runLoop`, where `main`'s `except` turns it into `sys.exit(1)`.) -/
def gh_issue_list_by_title (arr : List RemoteTicket) (title : Val) : List RemoteTicket :=
  arr.filter (fun item => pyEq (.vstr item.title) title)

/-- Embedding of `map_parent_canonical_to_number(parent_canonical, issue_map)`
(lines 73–82). An `issue_map.json` entry maps a canonical-id string to a
remote number. A container-valued `parent_canonical` is mapped to `none`;
on such a value CPython's `parent_canonical in issue_map` would raise
(unhashable) instead, but the Normalizer can only emit it from a
container-valued raw `parent` field, which no ticket literal has. -/
def map_parent_canonical_to_number (parent_canonical : Val)
    (issue_map : List (String × Int)) : Option Int :=
  if !pyTruthy parent_canonical then none
  else
    match parent_canonical with
    | .vbool b => some (if b then 1 else 0)
    | .vint n => some n
    | .vstr s =>
      match issue_map.find? (fun kv => kv.1 == s) with
      | some kv => some kv.2
      | none => none
    | _ => none

/-- Embedding of `gh_sub_issue_parent(child_number)` (lines 45–62) combined with the
`try/except` around its call site (lines 155–158): the argument is the raw
outcome of the `gh sub-issue list` call, `Except.error` standing for a
nonzero exit status or unparseable stdout. Every failure path — including a
reply shape on which the Python body would raise (non-list reply, non-dict
first element, non-dict truthy `parent`) and the exception would be caught
at the call site — yields `None`. -/
def gh_sub_issue_parent (reply : Except Unit Val) : Val :=
  match reply with
  | .error _ => .vnull
  | .ok obj =>
    if !pyTruthy obj then .vnull
    else
      match obj with
      | .vlist (first :: _) =>
        match first with
        | .vdict d =>
          let parent := dget d "parent"
          if !pyTruthy parent then .vnull
          else
            match parent with
            | .vdict pd => dget pd "number"
            | _ => .vnull
        | _ => .vnull
      | _ => .vnull

/-- The `notes` diagnostics block attached to an `Incomplete` export
(lines 182–186). -/
structure ExportNotes where
  remote_issue_number : Int
  remote_parent_number : Val
  body_has_required_fields : Bool

/-- One record of `exported_issues.json` (the dict literal repeated at
lines 113–127, 133–147 and 168–187; `created_at` and `url` are always
`None` and omitted here). `notes` is present exactly when the source adds
the diagnostics block. -/
structure ExportRecord where
  issue_number : Option Int
  canonical_id : Val
  title : Val
  body : Val
  labels : Val
  state : String
  parent_issue_number : Option Int
  requires : Val
  provides : Val
  points : Val
  priority : Val
  notes : Option ExportNotes

/-- One entry of the run-level `ambiguous` list (line 131): the candidate
title and the numbers of all matching remote tickets. -/
structure AmbiguousEntry where
  title : Val
  matchNumbers : List Int

def optIntToVal : Option Int → Val
  | none => .vnull
  | some n => .vint n

def isVNull : Val → Bool
  | .vnull => true
  | _ => false

/-- The export dict the three export branches build from candidate `c` and
the resolved expected parent (identical except for `notes`). -/
def mkExport (c : CanonicalTicket) (expected : Option Int)
    (notes : Option ExportNotes) : ExportRecord where
  issue_number := none
  canonical_id := c.canonical_id
  title := c.title
  body := pyOr c.body (.vstr "")
  labels := pyOr c.labels (.vlist [])
  state := "planned"
  parent_issue_number := expected
  requires := pyOr c.requires (.vstr "")
  provides := pyOr c.provides (.vstr "")
  points := pyOr c.points .vnull
  priority := pyOr c.priority .vnull
  notes := notes

/-- The boolean `parent_ok` (line 159). -/
def parentOk (expected : Option Int) (parent_num : Val) : Bool :=
  (expected.isNone && isVNull parent_num) || pyEq (optIntToVal expected) parent_num

/-- What one iteration of `main`'s loop (lines 100–187) decides for one
candidate, given a successful snapshot: the source either skips the export
(`correct`), appends a plain record (`missing`), appends a plain record and
an ambiguity entry (`ambiguous`), or appends a record with diagnostics
(`incomplete`). -/
inductive StepResult where
  | correct
  | exportMissing (r : ExportRecord)
  | exportAmbiguous (r : ExportRecord) (a : AmbiguousEntry)
  | exportIncomplete (r : ExportRecord)

/-- The loop body for one candidate (lines 100–187), with the remote
snapshot already fetched. `parentOf` maps a remote number to the raw
sub-issue reply. -/
def processCandidate (issues_map : List (String × Int))
    (snapshot : List RemoteTicket) (parentOf : Int → Except Unit Val)
    (c : CanonicalTicket) : StepResult :=
  let expected := map_parent_canonical_to_number c.parent_canonical issues_map
  match gh_issue_list_by_title snapshot c.title with
  | [] => .exportMissing (mkExport c expected none)
  | [remote] =>
    let parent_num := gh_sub_issue_parent (parentOf remote.number)
    let body_ok := body_has_required_fields (remote.body.getD "")
    if parentOk expected parent_num && body_ok then .correct
    else .exportIncomplete (mkExport c expected
      (some ⟨remote.number, parent_num, body_ok⟩))
  | ms => .exportAmbiguous (mkExport c expected none)
      ⟨c.title, ms.map (fun m => m.number)⟩

/-- The accumulating run state of `main` (lines 96–99). -/
structure RunState where
  exported : List ExportRecord
  scanned : Nat
  fully_correct : Nat
  ambiguous : List AmbiguousEntry

/-- Outcome of a run: `fatal code` models `sys.exit(code)` before the
output file is written (the fatal constructor deliberately carries no
export list: line 189's write is never reached), `success` the completed
run about to write `exported_issues.json`. -/
inductive RunResult where
  | fatal (exitCode : Nat)
  | success (st : RunState)

/-- The candidate loop of `main` (lines 100–187). `query i` is the outcome of
the `gh issue list` snapshot call made for the i-th candidate (`none` = the
call failed, which the source turns into `sys.exit(1)`). -/
def runLoop (issues_map : List (String × Int))
    (query : Nat → Option (List RemoteTicket))
    (parentOf : Int → Except Unit Val) :
    Nat → RunState → List CanonicalTicket → RunResult
  | _, st, [] => .success st
  | i, st, c :: rest =>
    let st1 : RunState := { st with scanned := st.scanned + 1 }
    match query i with
    | none => .fatal 1
    | some snapshot =>
      match processCandidate issues_map snapshot parentOf c with
      | .correct =>
        runLoop issues_map query parentOf (i + 1)
          { st1 with fully_correct := st1.fully_correct + 1 } rest
      | .exportMissing r =>
        runLoop issues_map query parentOf (i + 1)
          { st1 with exported := st1.exported ++ [r] } rest
      | .exportAmbiguous r a =>
        runLoop issues_map query parentOf (i + 1)
          { st1 with exported := st1.exported ++ [r],
                     ambiguous := st1.ambiguous ++ [a] } rest
      | .exportIncomplete r =>
        runLoop issues_map query parentOf (i + 1)
          { st1 with exported := st1.exported ++ [r] } rest

/-- A whole run of `compare_and_export.main` over the candidate list. -/
def runMain (candidates : List CanonicalTicket) (issues_map : List (String × Int))
    (query : Nat → Option (List RemoteTicket))
    (parentOf : Int → Except Unit Val) : RunResult :=
  runLoop issues_map query parentOf 0 ⟨[], 0, 0, []⟩ candidates

/-! ## Claims -/

/-- C1: a candidate with zero exact-title remote matches is classified
Missing and exported; one with two or more matches is classified Ambiguous
— exported with its matching remote numbers recorded — and never Correct,
whatever the bodies and parents of the matching tickets are (the statement
quantifies over every snapshot and every parent relation). -/
theorem C1_missing_and_ambiguous_classification
    (issues_map : List (String × Int)) (snapshot : List RemoteTicket)
    (parentOf : Int → Except Unit Val) (c : CanonicalTicket) :
    (gh_issue_list_by_title snapshot c.title = [] →
      processCandidate issues_map snapshot parentOf c =
        .exportMissing (mkExport c
          (map_parent_canonical_to_number c.parent_canonical issues_map) none)) ∧
    (∀ m₁ m₂ t, gh_issue_list_by_title snapshot c.title = m₁ :: m₂ :: t →
      processCandidate issues_map snapshot parentOf c =
        .exportAmbiguous (mkExport c
          (map_parent_canonical_to_number c.parent_canonical issues_map) none)
          ⟨c.title, (m₁ :: m₂ :: t).map (fun m => m.number)⟩ ∧
      processCandidate issues_map snapshot parentOf c ≠ .correct) := by
  constructor
  · intro h
    unfold processCandidate
    rw [h]
  · intro m₁ m₂ t h
    have he : processCandidate issues_map snapshot parentOf c =
        .exportAmbiguous (mkExport c
          (map_parent_canonical_to_number c.parent_canonical issues_map) none)
          ⟨c.title, (m₁ :: m₂ :: t).map (fun m => m.number)⟩ := by
      unfold processCandidate
      rw [h]
    refine ⟨he, ?_⟩
    intro hc
    rw [he] at hc
    exact StepResult.noConfusion hc

/-- A candidate used by the concrete witnesses: title `"T"`, everything
else absent. -/
def demoCand : CanonicalTicket :=
  ⟨.vnull, .vstr "T", .vnull, .vnull, .vnull, .vnull, .vnull, .vnull, .vnull⟩

def demoRemote5 : RemoteTicket := ⟨5, "T", some "body"⟩

def demoRemote7 : RemoteTicket := ⟨7, "T", none⟩

theorem C1_missing_and_ambiguous_classification_witness :
    processCandidate [] [] (fun _ => .error ()) demoCand =
      .exportMissing (mkExport demoCand none none) ∧
    (processCandidate [] [demoRemote5, demoRemote7] (fun _ => .error ()) demoCand =
      .exportAmbiguous (mkExport demoCand none none) ⟨.vstr "T", [5, 7]⟩ ∧
     processCandidate [] [demoRemote5, demoRemote7] (fun _ => .error ()) demoCand ≠
      .correct) :=
  ⟨(C1_missing_and_ambiguous_classification [] [] (fun _ => .error ()) demoCand).1
      rfl,
   (C1_missing_and_ambiguous_classification [] [demoRemote5, demoRemote7]
      (fun _ => .error ()) demoCand).2 demoRemote5 demoRemote7 [] rfl⟩


theorem isVNull_iff (p : Val) : isVNull p = true ↔ p = .vnull := by
  cases p <;> simp [isVNull]

theorem body_has_required_fields_iff (body : String) :
    body_has_required_fields body = true ↔
      (strIn (upperChars body.toList) "REQUIRES".toList = true ∧
       strIn (upperChars body.toList) "PROVIDES".toList = true ∧
       strIn (upperChars body.toList) "PRIORITY".toList = true) := by
  have hub : (if body != "" then upperChars body.toList else []) =
      upperChars body.toList := by
    by_cases h : body = ""
    · subst h; rfl
    · simp [h]
  simp only [body_has_required_fields, REQUIRE_FIELDS, hub, List.all_cons,
    List.all_nil, Bool.and_eq_true, and_true]

theorem parentOk_iff (e : Option Int) (p : Val) :
    parentOk e p = true ↔
      ((e = none ∧ p = .vnull) ∨ pyEq (optIntToVal e) p = true) := by
  unfold parentOk
  rw [Bool.or_eq_true, Bool.and_eq_true]
  constructor
  · rintro (⟨h1, h2⟩ | h)
    · exact Or.inl ⟨Option.isNone_iff_eq_none.mp h1, (isVNull_iff p).mp h2⟩
    · exact Or.inr h
  · rintro (⟨h1, h2⟩ | h)
    · exact Or.inl ⟨Option.isNone_iff_eq_none.mpr h1, (isVNull_iff p).mpr h2⟩
    · exact Or.inr h

/-- One unrolling of `runLoop` when the snapshot call for the current
candidate succeeds. -/
theorem runLoop_cons_eq (issues_map : List (String × Int))
    (query : Nat → Option (List RemoteTicket)) (parentOf : Int → Except Unit Val)
    (i : Nat) (st : RunState) (c : CanonicalTicket) (rest : List CanonicalTicket)
    (snapshot : List RemoteTicket) (hq : query i = some snapshot) :
    runLoop issues_map query parentOf i st (c :: rest) =
      (match processCandidate issues_map snapshot parentOf c with
       | .correct => runLoop issues_map query parentOf (i + 1)
           { st with scanned := st.scanned + 1,
                     fully_correct := st.fully_correct + 1 } rest
       | .exportMissing r => runLoop issues_map query parentOf (i + 1)
           { st with scanned := st.scanned + 1,
                     exported := st.exported ++ [r] } rest
       | .exportAmbiguous r a => runLoop issues_map query parentOf (i + 1)
           { st with scanned := st.scanned + 1,
                     exported := st.exported ++ [r],
                     ambiguous := st.ambiguous ++ [a] } rest
       | .exportIncomplete r => runLoop issues_map query parentOf (i + 1)
           { st with scanned := st.scanned + 1,
                     exported := st.exported ++ [r] } rest) := by
  conv_lhs => rw [runLoop]
  rw [hq]

/-- C2: with exactly one exact-title match, the classification is Correct
— no export record, `fully_correct` incremented — precisely when the remote
body contains `REQUIRES`, `PROVIDES` and `PRIORITY` case-insensitively and
the resolved remote parent equals the expected parent (including
both-absent); otherwise the candidate is exported as Incomplete with the
matched remote number, the resolved remote parent and the body-completeness
boolean in its diagnostics block. -/
theorem C2_single_match_validation
    (issues_map : List (String × Int)) (snapshot : List RemoteTicket)
    (parentOf : Int → Except Unit Val) (c : CanonicalTicket) (r : RemoteTicket)
    (h : gh_issue_list_by_title snapshot c.title = [r]) :
    (processCandidate issues_map snapshot parentOf c = .correct ↔
      ((strIn (upperChars (r.body.getD "").toList) "REQUIRES".toList = true ∧
        strIn (upperChars (r.body.getD "").toList) "PROVIDES".toList = true ∧
        strIn (upperChars (r.body.getD "").toList) "PRIORITY".toList = true) ∧
       ((map_parent_canonical_to_number c.parent_canonical issues_map = none ∧
         gh_sub_issue_parent (parentOf r.number) = .vnull) ∨
        pyEq (optIntToVal
            (map_parent_canonical_to_number c.parent_canonical issues_map))
          (gh_sub_issue_parent (parentOf r.number)) = true))) ∧
    (processCandidate issues_map snapshot parentOf c ≠ .correct →
      processCandidate issues_map snapshot parentOf c =
        .exportIncomplete (mkExport c
          (map_parent_canonical_to_number c.parent_canonical issues_map)
          (some ⟨r.number, gh_sub_issue_parent (parentOf r.number),
            body_has_required_fields (r.body.getD "")⟩))) ∧
    (processCandidate issues_map snapshot parentOf c = .correct →
      ∀ (query : Nat → Option (List RemoteTicket)) (i : Nat) (st : RunState)
        (rest : List CanonicalTicket), query i = some snapshot →
        runLoop issues_map query parentOf i st (c :: rest) =
          runLoop issues_map query parentOf (i + 1)
            { st with scanned := st.scanned + 1,
                      fully_correct := st.fully_correct + 1 } rest) := by
  have hred : processCandidate issues_map snapshot parentOf c =
      (if (parentOk (map_parent_canonical_to_number c.parent_canonical issues_map)
            (gh_sub_issue_parent (parentOf r.number)) &&
          body_has_required_fields (r.body.getD "")) = true then .correct
       else .exportIncomplete (mkExport c
          (map_parent_canonical_to_number c.parent_canonical issues_map)
          (some ⟨r.number, gh_sub_issue_parent (parentOf r.number),
            body_has_required_fields (r.body.getD "")⟩))) := by
    unfold processCandidate
    rw [h]
  refine ⟨?_, ?_, ?_⟩
  · rw [hred]
    by_cases hok : (parentOk (map_parent_canonical_to_number c.parent_canonical
        issues_map) (gh_sub_issue_parent (parentOf r.number)) &&
        body_has_required_fields (r.body.getD "")) = true
    · rw [hok]
      simp only [if_true, true_iff]
      simp only [Bool.and_eq_true] at hok
      obtain ⟨h1, h2⟩ := hok
      exact ⟨(body_has_required_fields_iff _).mp h2, (parentOk_iff _ _).mp h1⟩
    · simp only [Bool.not_eq_true] at hok
      rw [hok]
      simp only [Bool.false_eq_true, if_false]
      constructor
      · intro hc
        exact absurd hc (fun hc => StepResult.noConfusion hc)
      · rintro ⟨hbody, hparent⟩
        have h2 : body_has_required_fields (r.body.getD "") = true :=
          (body_has_required_fields_iff _).mpr hbody
        have h1 : parentOk (map_parent_canonical_to_number c.parent_canonical
            issues_map) (gh_sub_issue_parent (parentOf r.number)) = true :=
          (parentOk_iff _ _).mpr hparent
        rw [h1, h2] at hok
        exact absurd hok (by simp)
  · intro hnc
    rw [hred] at hnc ⊢
    by_cases hok : (parentOk (map_parent_canonical_to_number c.parent_canonical
        issues_map) (gh_sub_issue_parent (parentOf r.number)) &&
        body_has_required_fields (r.body.getD "")) = true
    · rw [hok] at hnc
      simp at hnc
    · simp only [Bool.not_eq_true] at hok
      rw [hok]
      simp
  · intro hc query i st rest hq
    rw [runLoop_cons_eq issues_map query parentOf i st c rest snapshot hq, hc]

def demoRemoteOK : RemoteTicket := ⟨42, "T", some "REQUIRES PROVIDES PRIORITY"⟩

theorem C2_single_match_validation_witness :
    processCandidate [] [demoRemoteOK] (fun _ => .error ()) demoCand = .correct :=
  (C2_single_match_validation [] [demoRemoteOK] (fun _ => .error ()) demoCand
      demoRemoteOK rfl).1.mpr ⟨⟨rfl, rfl, rfl⟩, Or.inl ⟨rfl, rfl⟩⟩

theorem pyOr_vnull_or_truthy (a b : Val)
    (hb : b = .vnull ∨ pyTruthy b = true) :
    pyOr a b = .vnull ∨ pyTruthy (pyOr a b) = true := by
  unfold pyOr
  by_cases h : pyTruthy a = true
  · right
    rw [if_pos h]
    exact h
  · rw [if_neg h]
    exact hb

/-- The Normalizer only emits an absent (`None`) or truthy
`parent_canonical`: the `or` chain swallows every falsy alias value. -/
theorem normalize_parent_shape (d : PyDict) :
    (normalize_ticket d).parent_canonical = .vnull ∨
    pyTruthy (normalize_ticket d).parent_canonical = true := by
  show pyOr (dget d "parent") (pyOr (dget d "parent_id")
    (pyOr (dget d "parent_key") .vnull)) = .vnull ∨ _
  exact pyOr_vnull_or_truthy _ _ (pyOr_vnull_or_truthy _ _
    (pyOr_vnull_or_truthy _ _ (Or.inl rfl)))

/-- C3: for a Normalizer-produced candidate, the expected parent number
resolves to null when `parent_canonical` is absent, to the value itself
when it is an integer, and otherwise to the IssueMap entry for it — null,
not an error, when no entry exists. -/
theorem C3_expected_parent_resolution (d : PyDict)
    (issue_map : List (String × Int)) :
    ((normalize_ticket d).parent_canonical = .vnull →
      map_parent_canonical_to_number (normalize_ticket d).parent_canonical
        issue_map = none) ∧
    (∀ n : Int, (normalize_ticket d).parent_canonical = .vint n →
      map_parent_canonical_to_number (normalize_ticket d).parent_canonical
        issue_map = some n) ∧
    (∀ s : String, (normalize_ticket d).parent_canonical = .vstr s →
      map_parent_canonical_to_number (normalize_ticket d).parent_canonical
        issue_map =
        (issue_map.find? (fun kv => kv.1 == s)).map (fun kv => kv.2)) ∧
    (∀ s : String, (normalize_ticket d).parent_canonical = .vstr s →
      (∀ kv ∈ issue_map, kv.1 ≠ s) →
      map_parent_canonical_to_number (normalize_ticket d).parent_canonical
        issue_map = none) := by
  refine ⟨?_, ?_, ?_, ?_⟩
  · intro h
    rw [h]
    rfl
  · intro n h
    have htr : pyTruthy (normalize_ticket d).parent_canonical = true := by
      rcases normalize_parent_shape d with h0 | h0
      · rw [h0] at h
        exact absurd h (fun h => Val.noConfusion h)
      · exact h0
    rw [h] at htr ⊢
    unfold map_parent_canonical_to_number
    rw [htr]
    rfl
  · intro s h
    have htr : pyTruthy (normalize_ticket d).parent_canonical = true := by
      rcases normalize_parent_shape d with h0 | h0
      · rw [h0] at h
        exact absurd h (fun h => Val.noConfusion h)
      · exact h0
    rw [h] at htr ⊢
    unfold map_parent_canonical_to_number
    rw [htr]
    cases hf : issue_map.find? (fun kv => kv.1 == s) <;> simp [hf]
  · intro s h hnone
    have htr : pyTruthy (normalize_ticket d).parent_canonical = true := by
      rcases normalize_parent_shape d with h0 | h0
      · rw [h0] at h
        exact absurd h (fun h => Val.noConfusion h)
      · exact h0
    rw [h] at htr ⊢
    unfold map_parent_canonical_to_number
    rw [htr]
    have hf : issue_map.find? (fun kv => kv.1 == s) = none := by
      rw [List.find?_eq_none]
      intro kv hkv hbeq
      exact hnone kv hkv (by simpa using hbeq)
    simp [hf]

def demoParentDict : PyDict := [(.vstr "parent", .vstr "CORE-1")]

def demoIssueMap : List (String × Int) := [("CORE-1", 42)]

theorem C3_expected_parent_resolution_witness :
    map_parent_canonical_to_number
      (normalize_ticket demoParentDict).parent_canonical demoIssueMap =
      some 42 :=
  ((C3_expected_parent_resolution demoParentDict demoIssueMap).2.2.1
    "CORE-1" rfl).trans rfl

def demoTitleEmptyDict : PyDict :=
  [(.vstr "title", .vstr ""), (.vstr "name", .vstr "X")]

/-- C4 counterexample: the raw record `{"title": "", "name": "X"}` has a
title present under the first recognized alias, whose value is the empty
string; normalization nevertheless returns the `name` value `"X"`, because
the source resolves aliases with Python `or`, which skips falsy values, not
merely missing ones. -/
theorem C4_counterexample :
    dget demoTitleEmptyDict "title" = .vstr "" ∧
    (normalize_ticket demoTitleEmptyDict).title = .vstr "X" ∧
    Val.vstr "X" ≠ Val.vstr "" := by
  refine ⟨rfl, rfl, ?_⟩
  intro h
  injection h with h
  exact absurd h (by decide)

/-- C4 (amended): the normalized title is the value of the first alias —
`title`, then `name`, then `summary` — whose value is truthy; an alias that
is present with a falsy value (empty string, `None`, `0`) is skipped, and
the title defaults to the empty string when no alias has a truthy value. -/
theorem C4_title_alias_resolution (d : PyDict) :
    (normalize_ticket d).title =
      (if pyTruthy (dget d "title") then dget d "title"
       else if pyTruthy (dget d "name") then dget d "name"
       else if pyTruthy (dget d "summary") then dget d "summary"
       else .vstr "") := by
  show pyOr (dget d "title") (pyOr (dget d "name")
    (pyOr (dget d "summary") (.vstr ""))) = _
  unfold pyOr
  rfl

def demoPointsZeroDict : PyDict := [(.vstr "points", .vint 0)]

/-- C7 counterexample: the raw record `{"points": 0}` has points source
value `0`, whose integer coercion succeeds (`int(0) = 0`), yet
normalization yields null: the alias chain `d.get('points') or
d.get('estimate') or None` discards the falsy value `0` before the
coercion cascade runs. -/
theorem C7_counterexample :
    dget demoPointsZeroDict "points" = .vint 0 ∧
    pyToInt (.vint 0) = some 0 ∧
    (normalize_ticket demoPointsZeroDict).points = .vnull ∧
    Val.vnull ≠ Val.vint 0 :=
  ⟨rfl, rfl, rfl, fun h => Val.noConfusion h⟩

/-- C7 (amended): points normalization never raises; for a truthy source
value (first of `points`, then `estimate`) it yields the integer coercion
when it succeeds, else the float coercion when it succeeds, else null; a
falsy (0, 0.0, empty) or missing points value yields null without
attempting coercion. -/
theorem C7_points_normalization (d : PyDict) :
    ((normalize_ticket d).points =
      (if pyTruthy (dget d "points") then coercePoints (dget d "points")
       else if pyTruthy (dget d "estimate") then coercePoints (dget d "estimate")
       else .vnull)) ∧
    (∀ (v : Val) (n : Int), pyToInt v = some n → coercePoints v = .vint n) ∧
    (∀ (v : Val) (q : Rat), pyToInt v = none → pyToFloat v = some q →
      coercePoints v = .vfloat q) ∧
    (∀ v : Val, pyToInt v = none → pyToFloat v = none →
      coercePoints v = .vnull) := by
  refine ⟨?_, ?_, ?_, ?_⟩
  · show (match pyOr (dget d "points") (pyOr (dget d "estimate") .vnull) with
      | Val.vnull => Val.vnull
      | v => coercePoints v) = _
    unfold pyOr
    by_cases h1 : pyTruthy (dget d "points") = true
    · rw [if_pos h1, if_pos h1]
      cases hv : dget d "points" <;> rfl
    · rw [if_neg h1, if_neg h1]
      by_cases h2 : pyTruthy (dget d "estimate") = true
      · rw [if_pos h2, if_pos h2]
        cases hv : dget d "estimate" <;> rfl
      · rw [if_neg h2, if_neg h2]
  · intro v n h
    unfold coercePoints
    rw [h]
  · intro v q h1 h2
    unfold coercePoints
    rw [h1, h2]
  · intro v h1 h2
    unfold coercePoints
    rw [h1, h2]

theorem C7_points_normalization_witness :
    coercePoints (.vint 3) = .vint 3 ∧
    coercePoints (.vstr "2.5") =
      .vfloat ((digitsToNat ['2'] : Rat) +
        (digitsToNat ['5'] : Rat) / ((10 : Rat) ^ ['5'].length)) ∧
    coercePoints (.vlist []) = .vnull :=
  ⟨(C7_points_normalization []).2.1 (.vint 3) 3 rfl,
   (C7_points_normalization []).2.2.1 (.vstr "2.5")
     ((digitsToNat ['2'] : Rat) +
       (digitsToNat ['5'] : Rat) / ((10 : Rat) ^ ['5'].length)) rfl rfl,
   (C7_points_normalization []).2.2.2 (.vlist []) rfl rfl⟩

/-- C5: after a full extraction run the candidate set holds all candidates
with truthy (non-empty) titles — falsy-titled records having been silently
discarded — at most one candidate per Python-equal title, and the surviving
candidate for a title is the first-encountered one: extending the run with
further sources only ever appends to the candidate list, never replaces or
reorders what an earlier source contributed. -/
theorem C5_dedup_invariant (lits : List Val) :
    (∀ c ∈ (extractRun lits).candidates, pyTruthy c.title = true) ∧
    (extractRun lits).candidates.Pairwise
      (fun a b => pyEq b.title a.title = false) ∧
    (∀ lits' : List Val,
      (extractRun lits).candidates <+:
        (extractRun (lits ++ lits')).candidates) :=
  ⟨fun c hc => ((extractRun_inv lits).1 c hc).1,
   (extractRun_inv lits).2,
   fun lits' => extractRun_mono lits lits'⟩

def demoD1 : PyDict := [(.vstr "title", .vstr "A")]

def demoD2 : PyDict := [(.vstr "title", .vstr "")]

def demoD3 : PyDict := [(.vstr "name", .vstr "A"), (.vstr "body", .vstr "b")]

def demoLits : List Val :=
  [.vlist [.vdict demoD1, .vdict demoD2, .vdict demoD3]]

theorem C5_dedup_invariant_witness :
    pyTruthy (normalize_ticket demoD1).title = true ∧
    (extractRun demoLits).candidates.Pairwise
      (fun a b => pyEq b.title a.title = false) ∧
    (extractRun demoLits).candidates <+:
      (extractRun (demoLits ++ [.vlist []])).candidates :=
  ⟨(C5_dedup_invariant demoLits).1 (normalize_ticket demoD1)
     (List.Mem.head _),
   (C5_dedup_invariant demoLits).2.1,
   (C5_dedup_invariant demoLits).2.2 [.vlist []]⟩

/-- C6 counterexample: candidate "T" with two remote tickets titled "T"
(numbers 5 and 7) is exported, but the exported record carries no ambiguity
annotation at all — its only annotation slot, `notes`, is empty, and the
matching numbers 5 and 7 are recorded solely in the run-level ambiguous
entry, which is printed, not written to the export artifact. -/
theorem C6_counterexample :
    processCandidate [] [demoRemote5, demoRemote7] (fun _ => .error ())
        demoCand =
      .exportAmbiguous (mkExport demoCand none none) ⟨.vstr "T", [5, 7]⟩ ∧
    (mkExport demoCand none none).notes = none :=
  ⟨rfl, rfl⟩

/-- C6 (amended): with two or more identically-titled remote matches the
candidate is exported — the exported record itself carrying no ambiguity
annotation (`notes = none`) — while the run-level ambiguous list gains one
entry with the candidate's title and all matching remote numbers, so the
ambiguous counter increments. -/
theorem C6_ambiguity_recording
    (issues_map : List (String × Int)) (snapshot : List RemoteTicket)
    (parentOf : Int → Except Unit Val) (c : CanonicalTicket)
    (m₁ m₂ : RemoteTicket) (t : List RemoteTicket)
    (hm : gh_issue_list_by_title snapshot c.title = m₁ :: m₂ :: t) :
    processCandidate issues_map snapshot parentOf c =
      .exportAmbiguous (mkExport c
        (map_parent_canonical_to_number c.parent_canonical issues_map) none)
        ⟨c.title, (m₁ :: m₂ :: t).map (fun m => m.number)⟩ ∧
    (mkExport c
      (map_parent_canonical_to_number c.parent_canonical issues_map)
      none).notes = none ∧
    (∀ (query : Nat → Option (List RemoteTicket)) (i : Nat) (st : RunState)
       (rest : List CanonicalTicket), query i = some snapshot →
      runLoop issues_map query parentOf i st (c :: rest) =
        runLoop issues_map query parentOf (i + 1)
          { st with scanned := st.scanned + 1,
                    exported := st.exported ++ [mkExport c
                      (map_parent_canonical_to_number c.parent_canonical
                        issues_map) none],
                    ambiguous := st.ambiguous ++
                      [⟨c.title, (m₁ :: m₂ :: t).map (fun m => m.number)⟩] }
          rest) := by
  have he : processCandidate issues_map snapshot parentOf c =
      .exportAmbiguous (mkExport c
        (map_parent_canonical_to_number c.parent_canonical issues_map) none)
        ⟨c.title, (m₁ :: m₂ :: t).map (fun m => m.number)⟩ := by
    unfold processCandidate
    rw [hm]
  refine ⟨he, rfl, ?_⟩
  intro query i st rest hq
  rw [runLoop_cons_eq issues_map query parentOf i st c rest snapshot hq, he]

theorem C6_ambiguity_recording_witness :
    runLoop [] (fun _ => some [demoRemote5, demoRemote7]) (fun _ => .error ())
      0 ⟨[], 0, 0, []⟩ [demoCand] =
    runLoop [] (fun _ => some [demoRemote5, demoRemote7]) (fun _ => .error ())
      1 ⟨[mkExport demoCand none none], 1, 0, [⟨.vstr "T", [5, 7]⟩]⟩ [] :=
  (C6_ambiguity_recording [] [demoRemote5, demoRemote7] (fun _ => .error ())
    demoCand demoRemote5 demoRemote7 [] rfl).2.2
    (fun _ => some [demoRemote5, demoRemote7]) 0 ⟨[], 0, 0, []⟩ [] rfl

def demoNestedA : PyDict := [(.vstr "title", .vstr "T1")]

def demoMixedMapping : PyDict :=
  [(.vstr "A", .vdict demoNestedA), (.vstr "B", .vstr "oops")]

/-- C8 counterexample: in the mapping `{"A": {"title": "T1"}, "B": "oops"}`
the entry "B" holds a string instead of a nested record. Extraction does
not crash, but it also does not extract the remaining record: because one
value fails the all-values-are-records test, the source normalizes the
whole mapping as a single (titleless, hence discarded) ticket, so nothing
at all is extracted — even though the nested record "A" on its own would
have been a valid candidate. -/
theorem C8_counterexample :
    (processLiteral ⟨[], []⟩ (.vdict demoMixedMapping)).candidates = [] ∧
    pyTruthy (normalize_ticket demoNestedA).title = true :=
  ⟨rfl, rfl⟩

/-- C8 (amended): in a mapping-of-records whose values are all records, the
mapping key becomes an entry's `canonical_id` whenever the record does not
already carry a truthy one; when some entry's value is not a record (for
example a string), extraction does not crash but falls back to normalizing
the entire mapping as one single record — the well-formed nested records
are not extracted individually. -/
theorem C8_mapping_key_and_string_value (entries : PyDict)
    (st : ExtractState) :
    ((entries.all (fun kv => isVDict kv.2)) = false →
      processLiteral st (.vdict entries) =
        addCandidate st (normalize_ticket entries)) ∧
    ((entries.all (fun kv => isVDict kv.2)) = true →
      processLiteral st (.vdict entries) =
        entries.foldl (fun s kv =>
          addCandidate s (normalize_ticket
            (dset (asDict kv.2) "canonical_id"
              (pyOr (dget (asDict kv.2) "canonical_id") kv.1)))) st) ∧
    (∀ (v : PyDict) (k : Val), pyTruthy (dget v "canonical_id") = false →
      pyTruthy k = true →
      (normalize_ticket (dset v "canonical_id"
        (pyOr (dget v "canonical_id") k))).canonical_id = k) := by
  refine ⟨?_, ?_, ?_⟩
  · intro hall
    show (if (entries.all fun kv => isVDict kv.2) = true then
        entries.foldl (fun s kv =>
          addCandidate s (normalize_ticket
            (dset (asDict kv.2) "canonical_id"
              (pyOr (dget (asDict kv.2) "canonical_id") kv.1)))) st
      else addCandidate st (normalize_ticket entries)) =
      addCandidate st (normalize_ticket entries)
    rw [hall]
    simp
  · intro hall
    show (if (entries.all fun kv => isVDict kv.2) = true then
        entries.foldl (fun s kv =>
          addCandidate s (normalize_ticket
            (dset (asDict kv.2) "canonical_id"
              (pyOr (dget (asDict kv.2) "canonical_id") kv.1)))) st
      else addCandidate st (normalize_ticket entries)) =
      entries.foldl (fun s kv =>
        addCandidate s (normalize_ticket
          (dset (asDict kv.2) "canonical_id"
            (pyOr (dget (asDict kv.2) "canonical_id") kv.1)))) st
    rw [hall]
    simp
  · intro v k hv hk
    have h1 : pyOr (dget v "canonical_id") k = k := by
      unfold pyOr
      rw [if_neg (by simp [hv])]
    rw [h1]
    show pyOr (dget (dset v "canonical_id" k) "canonical_id")
      (pyOr (dget (dset v "canonical_id" k) "id")
        (pyOr (dget (dset v "canonical_id" k) "key")
          (pyOr (dget (dset v "canonical_id" k) "ticket_id") .vnull))) = k
    rw [dget_dset_same]
    unfold pyOr
    rw [if_pos hk]

theorem C8_mapping_key_and_string_value_witness :
    processLiteral ⟨[], []⟩ (.vdict demoMixedMapping) =
      addCandidate ⟨[], []⟩ (normalize_ticket demoMixedMapping) ∧
    (normalize_ticket (dset demoNestedA "canonical_id"
      (pyOr (dget demoNestedA "canonical_id") (.vstr "A")))).canonical_id =
      .vstr "A" :=
  ⟨(C8_mapping_key_and_string_value demoMixedMapping ⟨[], []⟩).1 rfl,
   (C8_mapping_key_and_string_value demoMixedMapping ⟨[], []⟩).2.2
     demoNestedA (.vstr "A") rfl rfl⟩

theorem runLoop_nil (issues_map : List (String × Int))
    (query : Nat → Option (List RemoteTicket))
    (parentOf : Int → Except Unit Val) (i : Nat) (st : RunState) :
    runLoop issues_map query parentOf i st [] = .success st := by
  rw [runLoop]

/-- When the snapshot query for the current candidate fails, the loop
exits at once with status 1, discarding the whole accumulated state. -/
theorem runLoop_cons_fatal (issues_map : List (String × Int))
    (query : Nat → Option (List RemoteTicket))
    (parentOf : Int → Except Unit Val) (i : Nat) (st : RunState)
    (c : CanonicalTicket) (rest : List CanonicalTicket)
    (hq : query i = none) :
    runLoop issues_map query parentOf i st (c :: rest) = .fatal 1 := by
  conv_lhs => rw [runLoop]
  rw [hq]

/-- C9: a failed remote snapshot query aborts the run at once with exit
status 1 — the fatal result carries nothing, so no partial export artifact
exists to be written — whereas a failed parent lookup resolves to "no
parent" (`None`), and a run whose snapshot queries all succeed completes
under every parent-lookup behaviour, including one that always fails. -/
theorem C9_failure_semantics (issues_map : List (String × Int))
    (parentOf : Int → Except Unit Val) :
    (∀ (query : Nat → Option (List RemoteTicket)) (i : Nat) (st : RunState)
       (c : CanonicalTicket) (rest : List CanonicalTicket), query i = none →
      runLoop issues_map query parentOf i st (c :: rest) = .fatal 1) ∧
    gh_sub_issue_parent (.error ()) = .vnull ∧
    (∀ (query : Nat → Option (List RemoteTicket))
       (candidates : List CanonicalTicket),
      (∀ i, (query i).isSome) → ∀ (i : Nat) (st : RunState),
      ∃ st', runLoop issues_map query parentOf i st candidates =
        .success st') := by
  refine ⟨?_, rfl, ?_⟩
  · intro query i st c rest hq
    exact runLoop_cons_fatal issues_map query parentOf i st c rest hq
  · intro query candidates hq
    induction candidates with
    | nil => exact fun i st => ⟨st, runLoop_nil issues_map query parentOf i st⟩
    | cons c rest ih =>
      intro i st
      obtain ⟨snapshot, hs⟩ := Option.isSome_iff_exists.mp (hq i)
      rw [runLoop_cons_eq issues_map query parentOf i st c rest snapshot hs]
      cases hp : processCandidate issues_map snapshot parentOf c <;>
        exact ih (i + 1) _

theorem C9_failure_semantics_witness :
    runLoop [] (fun _ => none) (fun _ => .error ()) 0 ⟨[], 0, 0, []⟩
      [demoCand] = .fatal 1 ∧
    gh_sub_issue_parent (.error ()) = .vnull ∧
    (∃ st', runLoop [] (fun _ => some []) (fun _ => .error ()) 0
      ⟨[], 0, 0, []⟩ [demoCand] = .success st') :=
  ⟨(C9_failure_semantics [] (fun _ => .error ())).1 (fun _ => none) 0
     ⟨[], 0, 0, []⟩ demoCand [] rfl,
   (C9_failure_semantics [] (fun _ => .error ())).2.1,
   (C9_failure_semantics [] (fun _ => .error ())).2.2 (fun _ => some [])
     [demoCand] (fun _ => rfl) 0 ⟨[], 0, 0, []⟩⟩

theorem runLoop_counters (issues_map : List (String × Int))
    (query : Nat → Option (List RemoteTicket))
    (parentOf : Int → Except Unit Val) :
    ∀ (candidates : List CanonicalTicket) (i : Nat) (st0 st : RunState),
      runLoop issues_map query parentOf i st0 candidates = .success st →
      st.scanned + st0.fully_correct + st0.exported.length =
        st0.scanned + st.fully_correct + st.exported.length ∧
      st.ambiguous.length + st0.exported.length ≤
        st0.ambiguous.length + st.exported.length := by
  intro candidates
  induction candidates with
  | nil =>
    intro i st0 st h
    rw [runLoop_nil] at h
    cases h
    omega
  | cons c rest ih =>
    intro i st0 st h
    cases hq : query i with
    | none =>
      rw [runLoop_cons_fatal issues_map query parentOf i st0 c rest hq] at h
      exact absurd h (fun h => RunResult.noConfusion h)
    | some snapshot =>
      rw [runLoop_cons_eq issues_map query parentOf i st0 c rest snapshot hq]
        at h
      cases hp : processCandidate issues_map snapshot parentOf c <;>
        rw [hp] at h <;> have := ih (i + 1) _ st h <;>
        simp only [List.length_append, List.length_singleton] at this ⊢ <;>
        omega

/-- C10: in every completed run each scanned candidate contributed to
exactly one of the `fully_correct` counter or the export list, so the
scanned count equals `fully_correct` plus the number of exported records;
and an ambiguity entry is only ever recorded together with an export, so
the ambiguous count never exceeds the exported count. -/
theorem C10_run_counters (candidates : List CanonicalTicket)
    (issues_map : List (String × Int))
    (query : Nat → Option (List RemoteTicket))
    (parentOf : Int → Except Unit Val) (st : RunState)
    (h : runMain candidates issues_map query parentOf = .success st) :
    st.scanned = st.fully_correct + st.exported.length ∧
    st.ambiguous.length ≤ st.exported.length := by
  obtain ⟨h1, h2⟩ := runLoop_counters issues_map query parentOf candidates 0
    ⟨[], 0, 0, []⟩ st h
  constructor
  · have h1' : st.scanned + 0 + 0 = 0 + st.fully_correct + st.exported.length :=
      h1
    omega
  · have h2' : st.ambiguous.length + 0 ≤ 0 + st.exported.length := h2
    omega

theorem C10_run_counters_witness :
    (1 : Nat) = 0 + [mkExport demoCand none none].length ∧
    ([] : List AmbiguousEntry).length ≤ [mkExport demoCand none none].length := by
  have h : runMain [demoCand] [] (fun _ => some []) (fun _ => .error ()) =
      .success ⟨[mkExport demoCand none none], 1, 0, []⟩ := by
    show runLoop [] (fun _ => some []) (fun _ => .error ()) 0 ⟨[], 0, 0, []⟩
      [demoCand] = _
    rw [runLoop_cons_eq [] (fun _ => some []) (fun _ => .error ()) 0
      ⟨[], 0, 0, []⟩ demoCand [] [] rfl]
    show runLoop [] (fun _ => some []) (fun _ => .error ()) 1
      ⟨[mkExport demoCand none none], 1, 0, []⟩ [] = _
    exact runLoop_nil _ _ _ _ _
  exact C10_run_counters [demoCand] [] (fun _ => some []) (fun _ => .error ())
    ⟨[mkExport demoCand none none], 1, 0, []⟩ h
